import Mathlib

/-!
Verification development for the SOL2INK shuttle-backend knowledge pipeline.

The definitions below are shallow embeddings of the Rust sources:
  * `ContractMatcher` — src/contract_matcher.rs
  * `RAGSystem`       — src/rag_system.rs
  * `SolidityParser`  — src/parsers/solidity_parser.rs

External collaborators (filesystem, qdrant vector index, the text-generation
client) are modelled as explicit data passed to the embedded functions, with
the collaborator semantics taken from the interface description the code
relies on (a search with a score floor returns the stored points whose score
is at least the floor, sorted by descending score, truncated to the limit).
-/

namespace Matcher

/-- Snapshot of the filesystem collaborator used by `ContractMatcher`:
`dirEntries d` is the result of `fs::read_dir d` (`none` models an error,
`some names` lists the file names in `d`); `files p` is the content of the
file at path `p` (`none` models absent/unreadable; `Path::exists` and
`fs::read_to_string` are both answered from this map). -/
structure FileSystem where
  dirEntries : String → Option (List String)
  files : String → Option String

/-- Rust `Path::new(p).exists()`. -/
def pathExists (fs : FileSystem) (p : String) : Bool :=
  (fs.files p).isSome

/-- Split a file name at its last dot: `some (before, after)`. -/
def lastDotSplit : List Char → Option (List Char × List Char)
  | [] => none
  | c :: rest =>
    match lastDotSplit rest with
    | some (pre, post) => some (c :: pre, post)
    | none => if c = '.' then some ([], rest) else none

/-- Rust `Path::extension` on a bare file name: the portion after the last
dot, provided the portion before it is non-empty. -/
def fileExtension (name : String) : Option String :=
  match lastDotSplit name.toList with
  | some (pre, post) => if pre = [] then none else some (String.mk post)
  | none => none

/-- Rust `Path::file_stem` on a bare file name: the portion before the last
dot (the whole name when there is no extension). -/
def fileStem (name : String) : Option String :=
  if name = "" then none
  else
    match lastDotSplit name.toList with
    | some (pre, post) => if pre = [] then some (String.mk ('.' :: post)) else some (String.mk pre)
    | none => some name

/-- Split a character list on a separator character (every occurrence, like
Rust `str::split(c)`); structural recursion so that proofs can evaluate it. -/
def splitOnChar (sep : Char) : List Char → List (List Char)
  | [] => [[]]
  | c :: rest =>
    let r := splitOnChar sep rest
    if c = sep then [] :: r
    else
      match r with
      | g :: gs => (c :: g) :: gs
      | [] => [[c]]

/-- Last `/`-separated component of a path (Rust `Path::file_name` for the
paths this code builds). -/
def lastComponent (path : String) : String :=
  match (splitOnChar '/' path.toList).getLast? with
  | some c => String.mk c
  | none => path

/-- Field-for-field embedding of `ContractPair` (contract_matcher.rs). -/
structure ContractPair where
  solidity_path : String
  ink_path : String
  contract_type : String
  description : String
  solidity_content : String
  ink_content : String
deriving DecidableEq, Repr

/-- Field-for-field embedding of `ContractMatchResult`. -/
structure ContractMatchResult where
  pairs : List ContractPair
  unmatched_solidity : List String
  unmatched_ink : List String
deriving DecidableEq, Repr

/-- The two base paths held by `ContractMatcher`. -/
structure ContractMatcher where
  solidity_base_path : String
  ink_base_path : String

/-- `ContractMatcher::get_contract_mappings`, kept in insertion order (the
Rust `HashMap` iterates in an unspecified order; every claim proved below is
insensitive to the order, and key lookup is order-independent because the
keys are pairwise distinct). -/
def get_contract_mappings : List (String × String) :=
  [ ("SimpleERC20", "erc20/lib.rs")
  , ("SimpleNFT", "erc721/lib.rs")
  , ("SimpleERC1155", "erc1155/lib.rs")
  , ("Flipper", "flipper/lib.rs")
  , ("Counter", "incrementer/lib.rs")
  , ("SimpleStorage", "contract-storage/lib.rs")
  , ("MultiSigWallet", "multisig/lib.rs")
  , ("SimpleEscrow", "payment-channel/lib.rs")
  , ("EventEmitter", "events/lib.rs")
  , ("CallerContract", "basic-contract-caller/lib.rs")
  , ("TargetContract", "basic-contract-caller/other-contract/lib.rs") ]

/-- `HashMap::get` on the mapping table. -/
def mappingsGet (k : String) : Option String :=
  (get_contract_mappings.find? (fun e => e.1 = k)).map (fun e => e.2)

/-- `ContractMatcher::get_contract_description`. -/
def get_contract_description (contract_name : String) : String :=
  if contract_name = "SimpleERC20" then "ERC20 fungible token implementation with basic transfer, approve, and allowance functionality"
  else if contract_name = "SimpleNFT" then "ERC721 non-fungible token implementation with minting, burning, and transfer capabilities"
  else if contract_name = "SimpleERC1155" then "Multi-token standard supporting both fungible and non-fungible tokens with batch operations"
  else if contract_name = "Flipper" then "Simple boolean state contract that can be flipped between true and false"
  else if contract_name = "Counter" then "Basic counter contract with increment and decrement functionality"
  else if contract_name = "SimpleStorage" then "Basic storage contract demonstrating state management and data persistence"
  else if contract_name = "MultiSigWallet" then "Multi-signature wallet requiring multiple approvals for transactions"
  else if contract_name = "SimpleEscrow" then "Escrow contract for holding funds until conditions are met"
  else if contract_name = "EventEmitter" then "Contract demonstrating event emission and indexing patterns"
  else if contract_name = "CallerContract" then "Contract that calls other contracts, demonstrating cross-contract interactions"
  else if contract_name = "TargetContract" then "Target contract for cross-contract calls and interactions"
  else "Smart contract implementation: " ++ contract_name

/-- `ContractMatcher::find_solidity_contracts`: list `{base}/src`, keep the
entries with extension `sol`, return their full paths; a directory read
error is swallowed (`if let Ok`), yielding an empty list, so the function
always returns `Ok`. -/
def find_solidity_contracts (m : ContractMatcher) (fs : FileSystem) : Except String (List String) :=
  let srcPath := m.solidity_base_path ++ "/src"
  match fs.dirEntries srcPath with
  | some names =>
      .ok ((names.filter (fun n => fileExtension n = some "sol")).map (fun n => srcPath ++ "/" ++ n))
  | none => .ok []

/-- `ContractMatcher::extract_contract_name`: `file_stem` of the path,
defaulting to `"unknown"`. -/
def extract_contract_name (file_path : String) : String :=
  match fileStem (lastComponent file_path) with
  | some s => s
  | none => "unknown"

/-- The main loop of `find_contract_pairs` over the discovered source files:
a registered identifier whose mapped ink file exists yields a pair (reading
either file may fail, aborting the whole call); anything else goes to
`unmatched_solidity`. -/
def matchSources (m : ContractMatcher) (fs : FileSystem) :
    List String → Except String (List ContractPair × List String)
  | [] => .ok ([], [])
  | sc :: rest =>
    let contract_name := extract_contract_name sc
    match mappingsGet contract_name with
    | some ink_path =>
      let full_ink_path := m.ink_base_path ++ "/" ++ ink_path
      if pathExists fs full_ink_path then
        match fs.files sc with
        | none => .error "Failed to read Solidity contract"
        | some solidity_content =>
          match fs.files full_ink_path with
          | none => .error "Failed to read ink! contract"
          | some ink_content =>
            match matchSources m fs rest with
            | .error e => .error e
            | .ok (ps, us) =>
              .ok (⟨sc, full_ink_path, contract_name,
                    get_contract_description contract_name,
                    solidity_content, ink_content⟩ :: ps, us)
      else
        match matchSources m fs rest with
        | .error e => .error e
        | .ok (ps, us) => .ok (ps, sc :: us)
    | none =>
      match matchSources m fs rest with
      | .error e => .error e
      | .ok (ps, us) => .ok (ps, sc :: us)

/-- The second loop of `find_contract_pairs`: every registry entry whose ink
file exists and whose identifier was not used by an emitted pair is added to
`unmatched_ink`. -/
def unmatchedInk (m : ContractMatcher) (fs : FileSystem) (pairs : List ContractPair) : List String :=
  get_contract_mappings.filterMap (fun e =>
    let full_ink_path := m.ink_base_path ++ "/" ++ e.2
    if pathExists fs full_ink_path ∧ ¬ pairs.any (fun p => p.contract_type = e.1)
    then some full_ink_path else none)

/-- `ContractMatcher::find_contract_pairs`. -/
def find_contract_pairs (m : ContractMatcher) (fs : FileSystem) : Except String ContractMatchResult :=
  match find_solidity_contracts m fs with
  | .error e => .error e
  | .ok solidity_contracts =>
    match matchSources m fs solidity_contracts with
    | .error e => .error e
    | .ok (pairs, unmatched_solidity) =>
      .ok ⟨pairs, unmatched_solidity, unmatchedInk m fs pairs⟩

/-- The condition under which a discovered source file is emitted as a pair:
its stem is a registered identifier and the mapped ink file exists. -/
def pairedCond (m : ContractMatcher) (fs : FileSystem) (sc : String) : Bool :=
  match mappingsGet (extract_contract_name sc) with
  | some ink_path => pathExists fs (m.ink_base_path ++ "/" ++ ink_path)
  | none => false

theorem matchSources_ok_characterization (m : ContractMatcher) (fs : FileSystem) :
    ∀ (srcs : List String) (ps : List ContractPair) (us : List String),
      matchSources m fs srcs = .ok (ps, us) →
      ps.map (fun p => p.solidity_path) = srcs.filter (pairedCond m fs) ∧
      us = srcs.filter (fun sc => !(pairedCond m fs sc)) ∧
      ∀ p ∈ ps, fs.files p.solidity_path = some p.solidity_content ∧
        fs.files p.ink_path = some p.ink_content := by
  intro srcs
  induction srcs with
  | nil =>
    intro ps us h
    simp only [matchSources] at h
    cases h
    simp
  | cons sc rest ih =>
    intro ps us h
    simp only [matchSources] at h
    split at h
    · -- mappingsGet ... = some ink_path
      rename_i ink_path hm
      split at h
      · -- ink file exists
        rename_i hex
        split at h
        · exact absurd h (by simp)
        · rename_i solc hsol
          split at h
          · exact absurd h (by simp)
          · rename_i inkc hink
            split at h
            · exact absurd h (by simp)
            · rename_i ps' us' hrest
              rw [Except.ok.injEq, Prod.mk.injEq] at h
              obtain ⟨hps, hus⟩ := h
              subst hps; subst hus
              obtain ⟨h1, h2, h3⟩ := ih ps' us' hrest
              have hcond : pairedCond m fs sc = true := by
                simp [pairedCond, hm, hex]
              refine ⟨?_, ?_, ?_⟩
              · simp [List.filter_cons, hcond, h1]
              · simp [List.filter_cons, hcond, h2]
              · intro p hp
                rcases List.mem_cons.mp hp with hp | hp
                · subst hp; exact ⟨hsol, hink⟩
                · exact h3 p hp
      · -- ink file missing
        rename_i hex
        split at h
        · exact absurd h (by simp)
        · rename_i ps' us' hrest
          rw [Except.ok.injEq, Prod.mk.injEq] at h
          obtain ⟨hps, hus⟩ := h
          subst hps; subst hus
          obtain ⟨h1, h2, h3⟩ := ih ps' us' hrest
          have hcond : pairedCond m fs sc = false := by
            simp only [pairedCond, hm]
            simpa using hex
          refine ⟨?_, ?_, ?_⟩
          · simp [List.filter_cons, hcond, h1]
          · simp [List.filter_cons, hcond, h2]
          · exact h3
    · -- unregistered identifier
      rename_i hm
      split at h
      · exact absurd h (by simp)
      · rename_i ps' us' hrest
        rw [Except.ok.injEq, Prod.mk.injEq] at h
        obtain ⟨hps, hus⟩ := h
        subst hps; subst hus
        obtain ⟨h1, h2, h3⟩ := ih ps' us' hrest
        have hcond : pairedCond m fs sc = false := by
          simp [pairedCond, hm]
        refine ⟨?_, ?_, ?_⟩
        · simp [List.filter_cons, hcond, h1]
        · simp [List.filter_cons, hcond, h2]
        · exact h3

/-- The source files discovered by `find_solidity_contracts` (which always
returns `Ok`). -/
def discoveredSources (m : ContractMatcher) (fs : FileSystem) : List String :=
  match find_solidity_contracts m fs with
  | .ok l => l
  | .error _ => []

theorem find_contract_pairs_ok_elim (m : ContractMatcher) (fs : FileSystem)
    (r : ContractMatchResult) (h : find_contract_pairs m fs = .ok r) :
    matchSources m fs (discoveredSources m fs) = .ok (r.pairs, r.unmatched_solidity) ∧
    r.unmatched_ink = unmatchedInk m fs r.pairs := by
  unfold find_contract_pairs at h
  unfold discoveredSources
  split at h
  · exact absurd h (by simp)
  · rename_i srcs hfs
    simp only [hfs]
    split at h
    · exact absurd h (by simp)
    · rename_i ps us hms
      rw [Except.ok.injEq] at h
      subst h
      exact ⟨hms, rfl⟩

/-- C5: for every successful call to `find_contract_pairs`, each discovered
source file appears in exactly one of the result's `pairs` and
`unmatched_solidity`: in `pairs` precisely when its stem is a registered
identifier whose mapped ink file exists (`pairedCond`), and in
`unmatched_solidity` otherwise — never in both and never in neither. -/
theorem find_contract_pairs_source_partition (m : ContractMatcher) (fs : FileSystem)
    (r : ContractMatchResult) (h : find_contract_pairs m fs = .ok r) :
    ∀ sc ∈ discoveredSources m fs,
      (pairedCond m fs sc = true →
        sc ∈ r.pairs.map (fun p => p.solidity_path) ∧ sc ∉ r.unmatched_solidity) ∧
      (pairedCond m fs sc = false →
        sc ∉ r.pairs.map (fun p => p.solidity_path) ∧ sc ∈ r.unmatched_solidity) := by
  obtain ⟨hms, _⟩ := find_contract_pairs_ok_elim m fs r h
  obtain ⟨h1, h2, _⟩ := matchSources_ok_characterization m fs _ _ _ hms
  intro sc hsc
  constructor
  · intro hc
    constructor
    · rw [h1]; exact List.mem_filter.mpr ⟨hsc, hc⟩
    · rw [h2]
      intro hmem
      have := (List.mem_filter.mp hmem).2
      simp [hc] at this
  · intro hc
    constructor
    · rw [h1]
      intro hmem
      have := (List.mem_filter.mp hmem).2
      simp [hc] at this
    · rw [h2]; exact List.mem_filter.mpr ⟨hsc, by simp [hc]⟩

/-- Concrete matcher used by the witnesses: source tree `sol`, ink tree `ink`. -/
def mW : ContractMatcher := ⟨"sol", "ink"⟩

/-- Concrete filesystem: `sol/src` holds `Flipper.sol` (and a non-`.sol`
file); the registered ink counterpart `ink/flipper/lib.rs` exists. -/
def fsW : FileSystem :=
  ⟨fun d => if d = "sol/src" then some ["Flipper.sol", "notes.txt"] else none,
   fun p =>
     if p = "sol/src/Flipper.sol" then some "contract Flipper"
     else if p = "ink/flipper/lib.rs" then some "ink flipper" else none⟩

/-- Expected match result on `mW`/`fsW`. -/
def rW : ContractMatchResult :=
  ⟨[⟨"sol/src/Flipper.sol", "ink/flipper/lib.rs", "Flipper",
     get_contract_description "Flipper", "contract Flipper", "ink flipper"⟩], [], []⟩

theorem find_contract_pairs_source_partition_witness :
    find_contract_pairs mW fsW = .ok rW ∧
    pairedCond mW fsW "sol/src/Flipper.sol" = true ∧
    ("sol/src/Flipper.sol" ∈ rW.pairs.map (fun p => p.solidity_path) ∧
      "sol/src/Flipper.sol" ∉ rW.unmatched_solidity) := by
  have h : find_contract_pairs mW fsW = .ok rW := by rfl
  refine ⟨h, by decide, ?_⟩
  exact (find_contract_pairs_source_partition mW fsW rW h
    "sol/src/Flipper.sol" (by decide)).1 (by decide)

/-- C4 (amended): every pair emitted by a successful `find_contract_pairs`
carries exactly the full contents of the two files; in particular each
content is non-empty whenever the corresponding file is non-empty. -/
theorem find_contract_pairs_pair_contents (m : ContractMatcher) (fs : FileSystem)
    (r : ContractMatchResult) (h : find_contract_pairs m fs = .ok r) :
    ∀ p ∈ r.pairs,
      fs.files p.solidity_path = some p.solidity_content ∧
      fs.files p.ink_path = some p.ink_content ∧
      (fs.files p.solidity_path ≠ some "" → p.solidity_content ≠ "") ∧
      (fs.files p.ink_path ≠ some "" → p.ink_content ≠ "") := by
  obtain ⟨hms, _⟩ := find_contract_pairs_ok_elim m fs r h
  obtain ⟨_, _, h3⟩ := matchSources_ok_characterization m fs _ _ _ hms
  intro p hp
  obtain ⟨hsol, hink⟩ := h3 p hp
  refine ⟨hsol, hink, ?_, ?_⟩
  · intro hne hc; exact hne (hc ▸ hsol)
  · intro hne hc; exact hne (hc ▸ hink)

theorem find_contract_pairs_pair_contents_witness :
    find_contract_pairs mW fsW = .ok rW ∧
    (∀ p ∈ rW.pairs,
      fsW.files p.solidity_path = some p.solidity_content ∧
      fsW.files p.ink_path = some p.ink_content ∧
      (fsW.files p.solidity_path ≠ some "" → p.solidity_content ≠ "") ∧
      (fsW.files p.ink_path ≠ some "" → p.ink_content ≠ "")) := by
  have h : find_contract_pairs mW fsW = .ok rW := by rfl
  exact ⟨h, find_contract_pairs_pair_contents mW fsW rW h⟩

/-- Filesystem identical to `fsW` except that the matched source file
`sol/src/Flipper.sol` exists but is empty. -/
def fsEmptySource : FileSystem :=
  ⟨fun d => if d = "sol/src" then some ["Flipper.sol"] else none,
   fun p =>
     if p = "sol/src/Flipper.sol" then some ""
     else if p = "ink/flipper/lib.rs" then some "ink flipper" else none⟩

/-- Expected match result on `mW`/`fsEmptySource`: a pair is emitted whose
`solidity_content` is the empty string. -/
def rEmptySource : ContractMatchResult :=
  ⟨[⟨"sol/src/Flipper.sol", "ink/flipper/lib.rs", "Flipper",
     get_contract_description "Flipper", "", "ink flipper"⟩], [], []⟩

theorem find_contract_pairs_empty_content_counterexample :
    find_contract_pairs mW fsEmptySource = .ok rEmptySource ∧
    ¬ (∀ p ∈ rEmptySource.pairs, p.solidity_content ≠ "" ∧ p.ink_content ≠ "") :=
  ⟨by rfl, by decide⟩

/-- C10: when `read_dir` on `{solidity_base_path}/src` fails, the error is
swallowed: `find_contract_pairs` returns `Ok` with no pairs and no unmatched
source files, while `unmatched_ink` still lists every registry entry whose
ink file exists. -/
theorem find_contract_pairs_missing_src_dir (m : ContractMatcher) (fs : FileSystem)
    (h : fs.dirEntries (m.solidity_base_path ++ "/src") = none) :
    find_contract_pairs m fs = .ok ⟨[], [],
      get_contract_mappings.filterMap (fun e =>
        if pathExists fs (m.ink_base_path ++ "/" ++ e.2)
        then some (m.ink_base_path ++ "/" ++ e.2) else none)⟩ := by
  have hfs : find_solidity_contracts m fs = .ok [] := by
    simp [find_solidity_contracts, h]
  simp [find_contract_pairs, hfs, matchSources, unmatchedInk]

/-- Filesystem whose source directory is unreadable everywhere; one registry
ink file exists. -/
def fsNoDir : FileSystem :=
  ⟨fun _ => none, fun p => if p = "ink/flipper/lib.rs" then some "ink flipper" else none⟩

theorem find_contract_pairs_missing_src_dir_witness :
    fsNoDir.dirEntries (mW.solidity_base_path ++ "/src") = none ∧
    find_contract_pairs mW fsNoDir = .ok ⟨[], [], ["ink/flipper/lib.rs"]⟩ := by
  refine ⟨rfl, ?_⟩
  have h := find_contract_pairs_missing_src_dir mW fsNoDir rfl
  rw [h]
  rfl

end Matcher

namespace Str

/-- ASCII whitespace recognized by the Rust `char::is_whitespace` calls the
embedded code performs (the embedded inputs are ASCII). -/
def isWS (c : Char) : Bool :=
  c = ' ' || c = '\t' || c = '\n' || c = '\r' || c = '\x0b' || c = '\x0c'

/-- The literal `{` character (Rust code matches on it). -/
def lbrace : Char := Char.ofNat 123

/-- The literal `}` character. -/
def rbrace : Char := Char.ofNat 125

/-- Whether the first list is a prefix of the second. -/
def listIsPre : List Char → List Char → Bool
  | [], _ => true
  | _ :: _, [] => false
  | p :: ps, c :: cs => p = c && listIsPre ps cs

/-- Whether `pat` occurs as a contiguous substring (Rust `str::contains`). -/
def listHasSub (pat : List Char) : List Char → Bool
  | [] => listIsPre pat []
  | c :: rest => listIsPre pat (c :: rest) || listHasSub pat rest

/-- Rust `str::trim` (both ends, whitespace). -/
def trimChars (l : List Char) : List Char :=
  ((l.dropWhile isWS).reverse.dropWhile isWS).reverse

/-- Drop one trailing carriage return, as Rust `str::lines` does. -/
def stripCR (l : List Char) : List Char :=
  match l.getLast? with
  | some c => if c = '\r' then l.dropLast else l
  | none => l

/-- Rust `str::lines`: split on `'\n'`, drop a final empty segment, strip a
trailing `'\r'` from each line. -/
def rustLines (s : String) : List String :=
  let parts := Matcher.splitOnChar '\n' s.toList
  let parts :=
    match parts.getLast? with
    | some [] => parts.dropLast
    | _ => parts
  parts.map (fun l => String.mk (stripCR l))

/-- Rust `str::split_whitespace`: maximal runs of non-whitespace. -/
def splitWSAux : List Char → List Char → List (List Char)
  | [], acc => if acc = [] then [] else [acc.reverse]
  | c :: rest, acc =>
    if isWS c then
      if acc = [] then splitWSAux rest [] else acc.reverse :: splitWSAux rest []
    else splitWSAux rest (c :: acc)

/-- Rust `str::split_whitespace` on a character list. -/
def splitWS (l : List Char) : List (List Char) :=
  splitWSAux l []

/-- Join a list of strings with a separator (Rust `[String]::join`). -/
def joinSep (sep : String) : List String → String
  | [] => ""
  | [x] => x
  | x :: y :: rest => x ++ sep ++ joinSep sep (y :: rest)

end Str

namespace RAGSystem

/-- Embedding of `SearchResult` (rag_system.rs); the f32 `score` is modelled
as a rational, the payload-derived metadata map as an association list. -/
structure SearchResult where
  content : String
  score : ℚ
  metadata : List (String × String)
deriving DecidableEq, Repr

/-- `HashMap::get` on the metadata of a search result. -/
def metaGet (md : List (String × String)) (k : String) : Option String :=
  (md.find? (fun e => e.1 = k)).map (fun e => e.2)

/-- The `struct`-keyword fallback inside `RAGSystem::extract_contract_name`:
find a line containing both `pub struct` and `{`, split it on the substring
`struct`, take the second segment's first whitespace-separated token. -/
def splitOnStructAux : List Char → List Char → List (List Char)
  | 's' :: 't' :: 'r' :: 'u' :: 'c' :: 't' :: rest, acc => acc.reverse :: splitOnStructAux rest []
  | c :: rest, acc => splitOnStructAux rest (c :: acc)
  | [], acc => [acc.reverse]

/-- Rust `str::split("struct")`. -/
def splitOnStruct (l : List Char) : List (List Char) :=
  splitOnStructAux l []

/-- Rust `str::trim_end_matches(" {")` (removes every trailing repetition),
working on the reversed character list. -/
def trimEndBraceRev : List Char → List Char
  | b :: sp :: rest => if b = Str.lbrace ∧ sp = ' ' then trimEndBraceRev rest else b :: sp :: rest
  | l => l

/-- Rust `str::trim_end_matches(" {")`. -/
def trimEndBrace (l : List Char) : List Char :=
  (trimEndBraceRev l.reverse).reverse

/-- The `pub struct` branch of `RAGSystem::extract_contract_name`. -/
def extractNameStructBranch (ls : List String) : Option String :=
  match ls.find? (fun line =>
      Str.listHasSub "pub struct".toList line.toList &&
      Str.listHasSub [Str.lbrace] line.toList) with
  | some structLine =>
    match (splitOnStruct structLine.toList).get? 1 with
    | some seg =>
      match Str.splitWS seg with
      | w :: _ => some (String.mk w)
      | [] => none
    | none => none
  | none => none

/-- `RAGSystem::extract_contract_name`: prefer the first line whose trimmed
text starts with `mod ` (second whitespace token, with trailing ` {`
removed); otherwise fall back to the `pub struct` line. -/
def extract_contract_name (content : String) : Option String :=
  let ls := Str.rustLines content
  match ls.find? (fun line => Str.listIsPre "mod ".toList (Str.trimChars line.toList)) with
  | some modLine =>
    match (Str.splitWS modLine.toList).get? 1 with
    | some name => some (String.mk (trimEndBrace name))
    | none => extractNameStructBranch ls
  | none => extractNameStructBranch ls

/-- The accumulator loop of `RAGSystem::extract_description`: `/// ` lines
are collected (joined by single spaces); a `//` line containing `contract`
returns immediately. -/
def extractDescriptionGo : List String → String → Option String
  | [], desc => if desc = "" then none else some desc
  | line :: rest, desc =>
    let t := String.mk (Str.trimChars line.toList)
    if Str.listIsPre "/// ".toList t.toList then
      let piece := String.mk (t.toList.drop 4)
      extractDescriptionGo rest (if desc = "" then piece else desc ++ " " ++ piece)
    else if Str.listIsPre "//".toList t.toList && Str.listHasSub "contract".toList t.toList then
      some (String.mk (Str.trimChars (t.toList.drop 2)))
    else extractDescriptionGo rest desc

/-- `RAGSystem::extract_description`. -/
def extract_description (content : String) : Option String :=
  extractDescriptionGo (Str.rustLines content) ""

/-- The line loop of `RAGSystem::format_code` (`in_important_section` in the
Rust source is computed but never read, so it is omitted): 1-based line
counter, leading blank lines before line 5 skipped, output truncated with a
marker after line 51. -/
def formatCodeGo : List String → Nat → String → String
  | [], _, acc => acc
  | line :: rest, count, acc =>
    let count := count + 1
    if count < 5 && Str.trimChars line.toList = [] then formatCodeGo rest count acc
    else
      let acc := acc ++ line ++ "\n"
      if count > 50 then acc ++ "    // ... more code ...\n"
      else formatCodeGo rest count acc

/-- `RAGSystem::format_code`. -/
def format_code (content : String) : String :=
  formatCodeGo (Str.rustLines content) 0 ""

/-- One per-result block of the context assembled by
`generate_rag_response`. -/
def renderContextItem (r : SearchResult) : String :=
  let ci := ""
  let ci :=
    match metaGet r.metadata "file_path" with
    | some fp => ci ++ "Source: " ++ fp ++ "\n"
    | none => ci
  let ci :=
    match extract_contract_name r.content with
    | some n => ci ++ "Contract: " ++ n ++ "\n"
    | none => ci
  let ci :=
    match extract_description r.content with
    | some d => ci ++ "Description: " ++ d ++ "\n"
    | none => ci
  ci ++ "Code:\n" ++ format_code r.content ++ "\n"

/-- The specialized migration prompt built by `generate_rag_response`. -/
def migration_prompt (query : String) : String :=
  "You are an expert in both Solidity and ink! smart contracts. The user is asking: '"
    ++ query ++
    "'\n\nPlease provide a detailed, step-by-step explanation based on the provided code examples. Focus on:\n\n1. **Key Differences**: Explain main conceptual differences between Solidity and ink!\n2. **Migration Steps**: Provide clear, actionable steps for converting patterns\n3. **Code Examples**: Show concrete before/after examples from the context\n4. **Best Practices**: Highlight important considerations and gotchas\n5. **Practical Guide**: Make it actionable for developers\n\nFormat your response clearly with specific code snippets and explanations, not just raw code dumps."

/-- Descending insertion (stable) used to model the vector index ordering
results by decreasing score. -/
def insertDescBy {α : Type} (score : α → ℚ) (x : α) : List α → List α
  | [] => [x]
  | y :: rest => if score y < score x then x :: y :: rest else y :: insertDescBy score x rest

/-- Descending, stable sort by score. -/
def sortDescBy {α : Type} (score : α → ℚ) : List α → List α
  | [] => []
  | x :: rest => insertDescBy score x (sortDescBy score rest)

/-- The vector-index collaborator's search, as the code relies on it
(spec §4.4/§6): keep the points whose score reaches the floor (when given),
order by descending score, truncate to the limit. -/
def qdrant_search {α : Type} (score : α → ℚ) (points : List α) (limit : Nat)
    (floor : Option ℚ) : List α :=
  let kept :=
    match floor with
    | some f => points.filter (fun p => f ≤ score p)
    | none => points
  (sortDescBy score kept).take limit

/-- `RAGSystem::search_cache`: search the cache collection with limit 1 and
score floor 0.95; a returned point's stored answer is the hit. The stored
cache points are modelled as (score against the current query, answer). -/
def search_cache (points : List (ℚ × String)) : Option String :=
  match qdrant_search (fun p => p.1) points 1 (some ((95 : ℚ)/100)) with
  | [] => none
  | p :: _ => some p.2

/-- Collaborator outcomes visible to one `generate_rag_response` call: the
knowledge-search outcome, the scored cache points qdrant would report for
this query, and the generation client. -/
structure RagEnv where
  searchOutcome : Except String (List SearchResult)
  cachePoints : List (ℚ × String)
  gen : String → List String → Except String String

/-- The fixed preamble of the generation-failure fallback. -/
def fallbackPreamble : String :=
  "I'm having trouble generating a detailed response right now. Here are the most relevant code examples I found:\n\n"

/-- The canned no-result message. -/
def noInfoMessage : String :=
  "I don't have enough information to answer that question about ink! smart contracts."

/-- `RAGSystem::generate_rag_response`: propagate a knowledge-search error;
on zero results return the canned message; otherwise assemble the context
from the top five results and delegate to the generator, degrading to the
preamble plus the joined context when the generator fails. The second
component records the cache upserts performed during the call (the Rust body
performs none: its cache lookup is commented out, "skip cache for now"). -/
def generate_rag_response (env : RagEnv) (query : String) :
    Except String String × List (String × String) :=
  match env.searchOutcome with
  | .error e => (.error e, [])
  | .ok search_results =>
    if search_results.isEmpty then (.ok noInfoMessage, [])
    else
      let context := (search_results.take 5).map renderContextItem
      match env.gen (migration_prompt query) context with
      | .ok ai_response => (.ok ai_response, [])
      | .error _ => (.ok (fallbackPreamble ++ Str.joinSep "\n\n---\n\n" context), [])

theorem search_cache_single_hit (q : ℚ) (a : String)
    (h : decide ((95 : ℚ)/100 ≤ q) = true) : search_cache [(q, a)] = some a := by
  have h2 : qdrant_search (fun p : ℚ × String => p.1) [(q, a)] 1
      (some ((95 : ℚ)/100)) = [(q, a)] := by
    unfold qdrant_search
    simp [h, sortDescBy, insertDescBy]
  simp only [search_cache, h2]

theorem search_cache_single_miss (q : ℚ) (a : String)
    (h : decide ((95 : ℚ)/100 ≤ q) = false) : search_cache [(q, a)] = none := by
  have h2 : qdrant_search (fun p : ℚ × String => p.1) [(q, a)] 1
      (some ((95 : ℚ)/100)) = [] := by
    unfold qdrant_search
    simp [h, sortDescBy, insertDescBy]
  simp only [search_cache, h2]

theorem fallback_append_ne_empty (s : String) : fallbackPreamble ++ s ≠ "" := by
  intro h
  have h2 := congrArg String.length h
  rw [String.length_append] at h2
  have hpos : 0 < fallbackPreamble.length := by decide
  have h0 : ("" : String).length = 0 := rfl
  omega

/-- C7: with zero knowledge-search results, `generate_rag_response` returns
the canned "not enough information" message — never an empty string and
never an error — the generator is not consulted (the outcome is identical
for every generator and every cache content), and a search over an empty
collection yields no results. -/
theorem rag_empty_results_canned_message
    (cp cp' : List (ℚ × String)) (g g' : String → List String → Except String String)
    (q : String) (limit : Nat) (floor : Option ℚ) :
    generate_rag_response ⟨.ok [], cp, g⟩ q = (.ok noInfoMessage, []) ∧
    generate_rag_response ⟨.ok [], cp, g⟩ q = generate_rag_response ⟨.ok [], cp', g'⟩ q ∧
    noInfoMessage ≠ "" ∧
    qdrant_search (fun r : SearchResult => r.score) [] limit floor = [] := by
  refine ⟨rfl, rfl, by decide, ?_⟩
  cases floor <;> simp [qdrant_search, sortDescBy]

/-- C6: when the generator collaborator fails, `generate_rag_response`
still returns `Ok` with the fixed fallback preamble followed by the rendered
retrieved context, and that string is non-empty; the generator error is
never propagated to the caller. -/
theorem rag_generator_error_fallback
    (results : List SearchResult) (cp : List (ℚ × String)) (e q : String)
    (g : String → List String → Except String String)
    (hne : results ≠ [])
    (hg : ∀ p c, g p c = .error e) :
    generate_rag_response ⟨.ok results, cp, g⟩ q =
      (.ok (fallbackPreamble ++
        Str.joinSep "\n\n---\n\n" ((results.take 5).map renderContextItem)), []) ∧
    fallbackPreamble ++
        Str.joinSep "\n\n---\n\n" ((results.take 5).map renderContextItem) ≠ "" := by
  refine ⟨?_, fallback_append_ne_empty _⟩
  cases results with
  | nil => exact absurd rfl hne
  | cons r0 rest =>
    simp only [generate_rag_response, List.isEmpty_cons, Bool.false_eq_true, if_false, hg]

/-- A concrete retrieved document for the witnesses. -/
def srWitness : SearchResult :=
  ⟨"mod flipper\npub fn flip()", (1 : ℚ)/2, [("file_path", "flipper/lib.rs")]⟩

theorem rag_generator_error_fallback_witness :
    ([srWitness] : List SearchResult) ≠ [] ∧
    generate_rag_response ⟨.ok [srWitness], [], fun _ _ => .error "gen down"⟩ "q" =
      (.ok (fallbackPreamble ++
        Str.joinSep "\n\n---\n\n" (([srWitness].take 5).map renderContextItem)), []) ∧
    fallbackPreamble ++
        Str.joinSep "\n\n---\n\n" (([srWitness].take 5).map renderContextItem) ≠ "" := by
  refine ⟨by simp, ?_, ?_⟩
  · exact (rag_generator_error_fallback [srWitness] [] "gen down" "q" _
      (by simp) (fun _ _ => rfl)).1
  · exact (rag_generator_error_fallback [srWitness] [] "gen down" "q" _
      (by simp) (fun _ _ => rfl)).2

/-- Environment in which the cache holds a perfect-scoring answer for the
query while the generator succeeds with a different answer. -/
def envCacheHit : RagEnv :=
  ⟨.ok [srWitness], [(1, "cached answer")], fun _ _ => .ok "generated answer"⟩

/-- Environment in which the cache holds nothing. -/
def envCacheMiss : RagEnv :=
  ⟨.ok [srWitness], [], fun _ _ => .ok "generated answer"⟩

/-- C1 counterexample: `generate_rag_response` does not implement the
claimed cache protocol. With a cache whose top score 1 ≥ 0.95 (so
`search_cache` would hit and return "cached answer"), the call still returns
the generator's answer, not the cached one; and on a cache miss with a
successful generation it performs no cache write at all. -/
theorem rag_cache_protocol_counterexample :
    search_cache envCacheHit.cachePoints = some "cached answer" ∧
    (95 : ℚ)/100 ≤ 1 ∧
    (generate_rag_response envCacheHit "how do I flip?").1 = .ok "generated answer" ∧
    (.ok "generated answer" : Except String String) ≠ .ok "cached answer" ∧
    search_cache envCacheMiss.cachePoints = none ∧
    (generate_rag_response envCacheMiss "how do I flip?").2 = [] ∧
    ([] : List (String × String)) ≠ [("how do I flip?", "generated answer")] := by
  refine ⟨?_, by norm_num, ?_, ?_, ?_, ?_, by decide⟩
  · exact search_cache_single_hit 1 "cached answer" (decide_eq_true (by norm_num))
  · simp [generate_rag_response, envCacheHit]
  · intro h
    exact absurd (Except.ok.inj h) (by decide)
  · rfl
  · simp [generate_rag_response, envCacheMiss]

/-- C1 (amended): `generate_rag_response` neither reads nor writes the
semantic cache: its outcome is independent of the cache contents and its
list of cache upserts is always empty. The cache lookup helper
`search_cache` (which has no caller) does apply the 0.95 floor: a top score
of 0.951 returns the cached answer and 0.94 returns nothing. -/
theorem rag_cache_not_consulted
    (so : Except String (List SearchResult)) (cp cp' : List (ℚ × String))
    (g : String → List String → Except String String) (q : String) :
    generate_rag_response ⟨so, cp, g⟩ q = generate_rag_response ⟨so, cp', g⟩ q ∧
    (generate_rag_response ⟨so, cp, g⟩ q).2 = [] ∧
    (∀ a : String, search_cache [((951 : ℚ)/1000, a)] = some a) ∧
    (∀ a : String, search_cache [((94 : ℚ)/100, a)] = none) := by
  refine ⟨rfl, ?_, ?_, ?_⟩
  · unfold generate_rag_response
    cases so with
    | error e => rfl
    | ok rs =>
      simp only
      by_cases hrs : rs.isEmpty
      · rw [if_pos hrs]
      · rw [if_neg hrs]
        cases g (migration_prompt q) ((rs.take 5).map renderContextItem) <;> rfl
  · intro a
    exact search_cache_single_hit _ a (decide_eq_true (by norm_num))
  · intro a
    exact search_cache_single_miss _ a (decide_eq_false (by norm_num))

/-- Distance metric of a qdrant vector collection. -/
inductive Metric
  | Cosine
  | Euclid
deriving DecidableEq, Repr

/-- Vector configuration of a collection (dimension and metric). -/
structure VectorCfg where
  dim : Nat
  metric : Metric
deriving DecidableEq, Repr

/-- A qdrant collection: name, configuration and stored points
(id, payload). -/
structure QCollection where
  name : String
  cfg : VectorCfg
  points : List (String × String)
deriving DecidableEq, Repr

/-- State of the qdrant collaborator: its collections. -/
structure QdrantState where
  collections : List QCollection
deriving DecidableEq, Repr

/-- The `regular_collection` name held by `RAGSystem`. -/
def regular_collection : String := "code_knowledge"

/-- The `cache_collection` name held by `RAGSystem`. -/
def cache_collection : String := "code_knowledge_cache"

/-- `list_collections(..).any (name match)` check done by both creation
functions. -/
def collectionExists (st : QdrantState) (n : String) : Bool :=
  st.collections.any (fun c => c.name = n)

/-- `delete_collection`. -/
def delete_collection (st : QdrantState) (n : String) : QdrantState :=
  ⟨st.collections.filter (fun c => ¬ c.name = n)⟩

/-- `create_collection`: a fresh, empty collection with the given
configuration. -/
def create_collection (st : QdrantState) (n : String) (cfg : VectorCfg) : QdrantState :=
  ⟨st.collections ++ [⟨n, cfg, []⟩]⟩

/-- `RAGSystem::create_regular_collection`: if a collection of that name
exists it is deleted (unconditionally — its stored configuration is never
inspected), then the collection is created with 384 dimensions and Cosine
distance. -/
def create_regular_collection (st : QdrantState) : QdrantState :=
  let st := if collectionExists st regular_collection
            then delete_collection st regular_collection else st
  create_collection st regular_collection ⟨384, .Cosine⟩

/-- `RAGSystem::create_cache_collection`: same shape, 384 dimensions and
Euclid distance. -/
def create_cache_collection (st : QdrantState) : QdrantState :=
  let st := if collectionExists st cache_collection
            then delete_collection st cache_collection else st
  create_collection st cache_collection ⟨384, .Euclid⟩

/-- `RAGSystem::initialize_collections`: regular collection first, then the
cache collection. -/
def initialize_collections (st : QdrantState) : QdrantState :=
  create_cache_collection (create_regular_collection st)

/-- Look a collection up by name. -/
def getCollection (st : QdrantState) (n : String) : Option QCollection :=
  st.collections.find? (fun c => c.name = n)

theorem find?_name_filter_ne (n : String) (cs : List QCollection) :
    (cs.filter (fun c => ¬ c.name = n)).find? (fun c => c.name = n) = none := by
  rw [List.find?_eq_none]
  intro c hc
  have := (List.mem_filter.mp hc).2
  simpa using this

theorem find?_name_of_not_exists (n : String) (cs : List QCollection)
    (h : cs.any (fun c => c.name = n) = false) :
    cs.find? (fun c => c.name = n) = none := by
  rw [List.find?_eq_none]
  intro c hc
  have := List.any_eq_false.mp h c hc
  simpa using this

theorem find?_name_create (st : QdrantState) (n : String) (cfg : VectorCfg)
    (h : st.collections.find? (fun c => c.name = n) = none) :
    getCollection (create_collection st n cfg) n = some ⟨n, cfg, []⟩ := by
  unfold getCollection create_collection
  rw [List.find?_append, h]
  simp

theorem find?_name_filter_other (n m : String) (hnm : n ≠ m) (cs : List QCollection) :
    (cs.filter (fun c => ¬ c.name = m)).find? (fun c => c.name = n) =
      cs.find? (fun c => c.name = n) := by
  induction cs with
  | nil => rfl
  | cons c rest ih =>
    rw [List.filter_cons]
    by_cases hm : c.name = m
    · rw [if_neg (by simpa using hm)]
      have hcn : decide (c.name = n) = false := by
        simp only [decide_eq_false_iff_not]
        intro h
        exact hnm (h.symm.trans hm)
      rw [ih]
      simp only [List.find?_cons, hcn]
    · rw [if_pos (by simpa using hm)]
      simp only [List.find?_cons]
      cases hcn : decide (c.name = n)
      · dsimp only
        exact ih
      · dsimp only

/-- After `create_regular_collection`, no further collection of the regular
name precedes the freshly created one. -/
theorem create_regular_getCollection (st : QdrantState) :
    getCollection (create_regular_collection st) regular_collection =
      some ⟨regular_collection, ⟨384, .Cosine⟩, []⟩ := by
  unfold create_regular_collection
  by_cases h : collectionExists st regular_collection
  · rw [if_pos h]
    exact find?_name_create _ _ _ (find?_name_filter_ne _ _)
  · rw [if_neg h]
    exact find?_name_create _ _ _
      (find?_name_of_not_exists _ _ (by simpa [collectionExists] using h))

/-- C3 counterexample: a state whose regular collection already has exactly
the required configuration (384, Cosine) and holds a point. The claim says
such a collection is left in place with its data intact; after
`initialize_collections` (which runs `create_regular_collection`) the
collection's points are gone. -/
def stMatchingCfg : QdrantState :=
  ⟨[⟨"code_knowledge", ⟨384, .Cosine⟩, [("id-1", "a stored document")]⟩]⟩

theorem initialize_collections_destroys_matching_counterexample :
    (getCollection stMatchingCfg regular_collection).map (fun c => c.cfg) =
      some ⟨384, .Cosine⟩ ∧
    (getCollection stMatchingCfg regular_collection).map (fun c => c.points) =
      some [("id-1", "a stored document")] ∧
    (getCollection (initialize_collections stMatchingCfg) regular_collection).map
      (fun c => c.points) = some [] ∧
    some ([] : List (String × String)) ≠ some [("id-1", "a stored document")] := by
  refine ⟨rfl, rfl, rfl, by decide⟩

/-- C3 (amended): collection initialization is unconditionally destructive:
for every prior state, after `initialize_collections` the regular collection
exists with configuration (384, Cosine) and no points, and the cache
collection exists with configuration (384, Euclid) and no points — an
existing collection is dropped and recreated even when its stored
configuration already matches, so prior data never survives. -/
theorem initialize_collections_unconditional_recreate (st : QdrantState) :
    getCollection (initialize_collections st) regular_collection =
      some ⟨regular_collection, ⟨384, .Cosine⟩, []⟩ ∧
    getCollection (initialize_collections st) cache_collection =
      some ⟨cache_collection, ⟨384, .Euclid⟩, []⟩ := by
  have hreg := create_regular_getCollection st
  have hne : regular_collection ≠ cache_collection := by decide
  constructor
  · unfold initialize_collections create_cache_collection
    unfold getCollection at hreg ⊢
    by_cases h : collectionExists (create_regular_collection st) cache_collection
    · rw [if_pos h]
      unfold create_collection delete_collection
      rw [List.find?_append, find?_name_filter_other _ _ hne, hreg]
      rfl
    · rw [if_neg h]
      unfold create_collection
      rw [List.find?_append, hreg]
      rfl
  · unfold initialize_collections
    unfold create_cache_collection
    by_cases h : collectionExists (create_regular_collection st) cache_collection
    · rw [if_pos h]
      exact find?_name_create _ _ _ (find?_name_filter_ne _ _)
    · rw [if_neg h]
      exact find?_name_create _ _ _
        (find?_name_of_not_exists _ _ (by simpa [collectionExists] using h))

end RAGSystem

namespace SolidityParser

/-- Word character of the regex class `\w` (ASCII: the embedded fixtures and
patterns are ASCII). -/
def isWordChar (c : Char) : Bool :=
  c.isAlphanum || c = '_'

/-- Match a literal at the head of the input, returning the remainder. -/
def litM (pat : List Char) (s : List Char) : Option (List Char) :=
  if Str.listIsPre pat s then some (s.drop pat.length) else none

/-- Regex `(\w+)` by maximal munch. In every embedded pattern a `\w+` group
is followed by a token that cannot match a word character, so maximal munch
coincides with the regex engine's backtracking semantics. -/
def wordPlus (s : List Char) : Option (List Char × List Char) :=
  let w := s.takeWhile isWordChar
  if w = [] then none else some (w, s.drop w.length)

/-- Regex `\s+` by maximal munch (always followed by a non-space token in
the embedded patterns). -/
def spacePlus (s : List Char) : Option (List Char) :=
  let w := s.takeWhile Str.isWS
  if w = [] then none else some (s.drop w.length)

/-- Regex `\s*` by maximal munch. -/
def spaceStar (s : List Char) : List Char :=
  s.drop (s.takeWhile Str.isWS).length

/-- First-match alternation over keyword literals (the embedded keyword sets
are pairwise non-prefixing, so at most one alternative can match at a given
position). -/
def altLit : List (List Char) → List Char → Option (String × List Char)
  | [], _ => none
  | p :: ps, s =>
    match litM p s with
    | some rest => some (String.mk p, rest)
    | none => altLit ps s

/-- Lazy `.*?` with full continuation backtracking: the shortest prefix
(avoiding `'\n'` unless `allowNL`, i.e. unless the pattern has the `(?s)`
flag) whose remainder satisfies the continuation. -/
def lazyScan {α : Type} (allowNL : Bool) (k : List Char → Option α) :
    List Char → Option (List Char × α)
  | [] => (k []).map (fun a => ([], a))
  | c :: rest =>
    match k (c :: rest) with
    | some a => some ([], a)
    | none =>
      if allowNL || !(c = '\n') then
        (lazyScan allowNL k rest).map (fun pr => (c :: pr.1, pr.2))
      else none

/-- First match of `f` scanning left to right (regex `captures`). -/
def findFirstMap {α : Type} (f : List Char → Option α) : List Char → Option α
  | [] => f []
  | c :: rest =>
    match f (c :: rest) with
    | some a => some a
    | none => findFirstMap f rest

/-- Leftmost non-overlapping iteration (regex `captures_iter`); fuelled by
the input length (every embedded matcher consumes at least one character on
success, so the fuel never runs out). -/
def scanAllAux {α : Type} (f : List Char → Option (α × List Char)) :
    Nat → List Char → List α
  | 0, _ => []
  | _ + 1, [] =>
    match f [] with
    | some (a, _) => [a]
    | none => []
  | fuel + 1, c :: rest =>
    match f (c :: rest) with
    | some (a, rest2) => a :: scanAllAux f fuel rest2
    | none => scanAllAux f fuel rest

/-- All leftmost non-overlapping matches of `f`. -/
def scanAll {α : Type} (f : List Char → Option (α × List Char)) (s : List Char) : List α :=
  scanAllAux f (s.length + 1) s

/-- Greedy `(?: ... )?`: try the with-branch, fall back to the without-branch
when the continuation fails (exact regex backtracking). -/
def optTry {α β : Type} (withB : Option (α × List Char)) (without : List Char)
    (k : Option α → List Char → Option β) : Option β :=
  match withB with
  | some (a, r) =>
    match k (some a) r with
    | some b => some b
    | none => k none without
  | none => k none without

/-- Field-for-field embedding of `SolidityParameter`. -/
structure SolidityParameter where
  name : String
  type_name : String
  is_indexed : Bool
deriving DecidableEq, Repr

/-- Field-for-field embedding of `SolidityFunction`. -/
structure SolidityFunction where
  name : String
  parameters : List SolidityParameter
  return_type : Option String
  visibility : String
  mutability : Option String
  body : String
deriving DecidableEq, Repr

/-- Field-for-field embedding of `SolidityStateVariable`. -/
structure SolidityStateVariable where
  name : String
  type_name : String
  visibility : String
  is_mapping : Bool
  key_type : Option String
  value_type : Option String
deriving DecidableEq, Repr

/-- Field-for-field embedding of `SolidityEvent`. -/
structure SolidityEvent where
  name : String
  parameters : List SolidityParameter
deriving DecidableEq, Repr

/-- Field-for-field embedding of `SolidityContract`. -/
structure SolidityContract where
  name : String
  functions : List SolidityFunction
  state_variables : List SolidityStateVariable
  events : List SolidityEvent
  custom_errors : List String
deriving DecidableEq, Repr

/-- Regex `contract\s+(\w+)` at one position. -/
def matchContractNameAt (s : List Char) : Option String :=
  match litM "contract".toList s with
  | none => none
  | some s1 =>
    match spacePlus s1 with
    | none => none
    | some s2 => (wordPlus s2).map (fun pr => String.mk pr.1)

/-- `SolidityParser::parse_contract_name`: first `contract <Name>` match;
absence is the only parse error. -/
def parse_contract_name (content : String) : Except String String :=
  match findFirstMap matchContractNameAt content.toList with
  | some n => .ok n
  | none => .error "No contract name found"

/-- Regex `(\w+)\s+(public|private|internal)\s+(\w+);` at one position:
(type, visibility, name). -/
def matchPlainVarAt (s : List Char) : Option ((String × String × String) × List Char) :=
  match wordPlus s with
  | none => none
  | some (ty, s1) =>
    match spacePlus s1 with
    | none => none
    | some s2 =>
      match altLit ["public".toList, "private".toList, "internal".toList] s2 with
      | none => none
      | some (vis, s3) =>
        match spacePlus s3 with
        | none => none
        | some s4 =>
          match wordPlus s4 with
          | none => none
          | some (nm, s5) =>
            match litM [';'] s5 with
            | none => none
            | some s6 => some ((String.mk ty, vis, String.mk nm), s6)

/-- Regex `mapping\((\w+)\s*=>\s*(\w+)\)\s+(public|private|internal)\s+(\w+);`
at one position: (keyType, valueType, visibility, name). -/
def matchMappingAt (s : List Char) :
    Option ((String × String × String × String) × List Char) :=
  match litM "mapping(".toList s with
  | none => none
  | some s1 =>
    match wordPlus s1 with
    | none => none
    | some (kt, s2) =>
      match litM "=>".toList (spaceStar s2) with
      | none => none
      | some s3 =>
        match wordPlus (spaceStar s3) with
        | none => none
        | some (vt, s4) =>
          match litM [')'] s4 with
          | none => none
          | some s5 =>
            match spacePlus s5 with
            | none => none
            | some s6 =>
              match altLit ["public".toList, "private".toList, "internal".toList] s6 with
              | none => none
              | some (vis, s7) =>
                match spacePlus s7 with
                | none => none
                | some s8 =>
                  match wordPlus s8 with
                  | none => none
                  | some (nm, s9) =>
                    match litM [';'] s9 with
                    | none => none
                    | some s10 =>
                      some ((String.mk kt, String.mk vt, vis, String.mk nm), s10)

/-- Regex
`mapping\((\w+)\s*=>\s*mapping\((\w+)\s*=>\s*(\w+)\)\)\s+(public|private|internal)\s+(\w+);`
at one position: (keyType, innerKeyType, valueType, visibility, name). -/
def matchNestedMappingAt (s : List Char) :
    Option ((String × String × String × String × String) × List Char) :=
  match litM "mapping(".toList s with
  | none => none
  | some s1 =>
    match wordPlus s1 with
    | none => none
    | some (kt, s2) =>
      match litM "=>".toList (spaceStar s2) with
      | none => none
      | some s3 =>
        match litM "mapping(".toList (spaceStar s3) with
        | none => none
        | some s4 =>
          match wordPlus s4 with
          | none => none
          | some (ikt, s5) =>
            match litM "=>".toList (spaceStar s5) with
            | none => none
            | some s6 =>
              match wordPlus (spaceStar s6) with
              | none => none
              | some (vt, s7) =>
                match litM "))".toList s7 with
                | none => none
                | some s8 =>
                  match spacePlus s8 with
                  | none => none
                  | some s9 =>
                    match altLit ["public".toList, "private".toList, "internal".toList] s9 with
                    | none => none
                    | some (vis, s10) =>
                      match spacePlus s10 with
                      | none => none
                      | some s11 =>
                        match wordPlus s11 with
                        | none => none
                        | some (nm, s12) =>
                          match litM [';'] s12 with
                          | none => none
                          | some s13 =>
                            some ((String.mk kt, String.mk ikt, String.mk vt, vis,
                                   String.mk nm), s13)

/-- The `\s*\{(.*?)\}` tail shared by the constructor and function patterns:
skip spaces, require `{`, capture lazily up to the first `}`; returns (body,
remainder after `}`). -/
def braceBody (r : List Char) : Option (List Char × List Char) :=
  match litM [Str.lbrace] (spaceStar r) with
  | none => none
  | some r1 => lazyScan true (fun b => litM [Str.rbrace] b) r1

/-- Regex `(?s)constructor\s*\((.*?)\)\s*\{(.*?)\}` at one position:
(params, body). -/
def matchConstructorAt (s : List Char) : Option (String × String) :=
  match litM "constructor".toList s with
  | none => none
  | some s1 =>
    match litM ['('] (spaceStar s1) with
    | none => none
    | some s2 =>
      (lazyScan true (fun r =>
        match litM [')'] r with
        | none => none
        | some r1 => braceBody r1) s2).map
        (fun pr => (String.mk pr.1, String.mk pr.2.1))

/-- Captures of one regular-function match. -/
structure FunCapture where
  name : String
  params : String
  visibility : String
  mutability : Option String
  returnsRaw : Option String
  body : String
deriving DecidableEq, Repr

/-- The optional group `(?:returns\s*\(([^)]*)\))?`'s with-branch:
`[^)]*` is greedy over non-`)` characters (exact, since the follow token is
exactly `)`). -/
def returnsAttempt (r : List Char) : Option (String × List Char) :=
  match litM "returns".toList r with
  | none => none
  | some r1 =>
    match litM ['('] (spaceStar r1) with
    | none => none
    | some r2 =>
      let cap := r2.takeWhile (fun c => !(c = ')'))
      match litM [')'] (r2.drop cap.length) with
      | none => none
      | some r3 => some (String.mk cap, r3)

/-- Regex `(?s)function\s+(\w+)\s*\((.*?)\)\s+(public|private|internal|external)`
`(?:\s+(view|pure|payable))?\s*(?:returns\s*\(([^)]*)\))?\s*\{(.*?)\}`
at one position. -/
def matchFunctionAt (s : List Char) : Option (FunCapture × List Char) :=
  match litM "function".toList s with
  | none => none
  | some s1 =>
    match spacePlus s1 with
    | none => none
    | some s2 =>
      match wordPlus s2 with
      | none => none
      | some (nm, s3) =>
        match litM ['('] (spaceStar s3) with
        | none => none
        | some s4 =>
          (lazyScan true (fun r =>
            match litM [')'] r with
            | none => none
            | some r1 =>
              match spacePlus r1 with
              | none => none
              | some r2 =>
                match altLit ["public".toList, "private".toList, "internal".toList,
                              "external".toList] r2 with
                | none => none
                | some (vis, r3) =>
                  optTry ((spacePlus r3).bind (fun r4 =>
                      altLit ["view".toList, "pure".toList, "payable".toList] r4))
                    r3 (fun mv r5 =>
                    optTry (returnsAttempt (spaceStar r5)) (spaceStar r5) (fun ret r6 =>
                      (braceBody r6).map (fun pr =>
                        ((vis, mv, ret, String.mk pr.1), pr.2))))) s4).map
            (fun pr =>
              let (params, (vis, mv, ret, body), rest) :=
                (pr.1, pr.2.1, pr.2.2)
              (⟨String.mk nm, String.mk params, vis, mv, ret, body⟩, rest))

/-- Regex `event\s+(\w+)\s*\((.*?)\);` (no `(?s)`, so the lazy group cannot
cross a newline) at one position: ((name, params), remainder). -/
def matchEventAt (s : List Char) : Option ((String × String) × List Char) :=
  match litM "event".toList s with
  | none => none
  | some s1 =>
    match spacePlus s1 with
    | none => none
    | some s2 =>
      match wordPlus s2 with
      | none => none
      | some (nm, s3) =>
        match litM ['('] (spaceStar s3) with
        | none => none
        | some s4 =>
          (lazyScan false (fun r => litM ");".toList r) s4).map
            (fun pr => ((String.mk nm, String.mk pr.1), pr.2))

/-- Regex `error\s+(\w+)\s*\(.*?\);` (no `(?s)`) at one position:
(name, remainder). -/
def matchErrorAt (s : List Char) : Option (String × List Char) :=
  match litM "error".toList s with
  | none => none
  | some s1 =>
    match spacePlus s1 with
    | none => none
    | some s2 =>
      match wordPlus s2 with
      | none => none
      | some (nm, s3) =>
        match litM ['('] (spaceStar s3) with
        | none => none
        | some s4 =>
          (lazyScan false (fun r => litM ");".toList r) s4).map
            (fun pr => (String.mk nm, pr.2))

/-- `SolidityParser::parse_parameters`: split on commas, trim, split each
parameter on whitespace, keep (first token = type, last token = name) when
at least two tokens are present. -/
def parse_parameters (params_str : String) : List SolidityParameter :=
  if Str.trimChars params_str.toList = [] then []
  else
    (Matcher.splitOnChar ',' params_str.toList).filterMap (fun param =>
      let param := Str.trimChars param
      if param = [] then none
      else
        match Str.splitWS param with
        | t :: r1 :: rs =>
          some ⟨String.mk ((r1 :: rs).getLast (List.cons_ne_nil r1 rs)),
                String.mk t, false⟩
        | _ => none)

/-- `SolidityParser::parse_event_parameters`: like `parse_parameters`, and a
parameter is indexed iff its text contains the token `indexed`. -/
def parse_event_parameters (params_str : String) : List SolidityParameter :=
  if Str.trimChars params_str.toList = [] then []
  else
    (Matcher.splitOnChar ',' params_str.toList).filterMap (fun param =>
      let param := Str.trimChars param
      if param = [] then none
      else
        let is_indexed := Str.listHasSub "indexed".toList param
        match Str.splitWS param with
        | t :: r1 :: rs =>
          some ⟨String.mk ((r1 :: rs).getLast (List.cons_ne_nil r1 rs)),
                String.mk t, is_indexed⟩
        | _ => none)

/-- `SolidityParser::parse_state_variables`: three independent pattern
passes over the whole text (plain variables, single mappings, nested
mappings), concatenated in that order. -/
def parse_state_variables (content : String) : List SolidityStateVariable :=
  let plain := (scanAll matchPlainVarAt content.toList).map (fun c =>
    ⟨c.2.2, c.1, c.2.1, false, none, none⟩)
  let maps := (scanAll matchMappingAt content.toList).map (fun c =>
    ⟨c.2.2.2, "mapping(" ++ c.1 ++ " => " ++ c.2.1 ++ ")", c.2.2.1,
     true, some c.1, some c.2.1⟩)
  let nested := (scanAll matchNestedMappingAt content.toList).map (fun c =>
    ⟨c.2.2.2.2, "mapping(" ++ c.1 ++ " => mapping(" ++ c.2.1 ++ " => " ++ c.2.2.1 ++ "))",
     c.2.2.2.1, true, some c.1, some ("mapping(" ++ c.2.1 ++ " => " ++ c.2.2.1 ++ ")")⟩)
  plain ++ maps ++ nested

/-- The `returns` capture post-processing: trim, keep only the text before
the first space (Rust `return_str[..space_pos]`). -/
def extractReturnTy (r : String) : String :=
  let t := Str.trimChars r.toList
  String.mk (t.takeWhile (fun c => !(c = ' ')))

/-- `SolidityParser::parse_functions`: the (at most one) constructor match,
then every regular-function match. -/
def parse_functions (content : String) : List SolidityFunction :=
  let ctor :=
    match findFirstMap matchConstructorAt content.toList with
    | some (params, body) =>
      [⟨"constructor", parse_parameters params, none, "public", none, body⟩]
    | none => []
  let funcs := (scanAll matchFunctionAt content.toList).map (fun c =>
    ⟨c.name, parse_parameters c.params, c.returnsRaw.map extractReturnTy,
     c.visibility, c.mutability, c.body⟩)
  ctor ++ funcs

/-- `SolidityParser::parse_events`. -/
def parse_events (content : String) : List SolidityEvent :=
  (scanAll matchEventAt content.toList).map (fun c =>
    ⟨c.1, parse_event_parameters c.2⟩)

/-- `SolidityParser::parse_custom_errors`: only the names are kept. -/
def parse_custom_errors (content : String) : List String :=
  scanAll matchErrorAt content.toList

/-- `SolidityParser::parse_contract`: the contract name is the only fatal
extraction; every other pass is total. -/
def parse_contract (content : String) : Except String SolidityContract :=
  match parse_contract_name content with
  | .error e => .error e
  | .ok nm =>
    .ok ⟨nm, parse_functions content, parse_state_variables content,
         parse_events content, parse_custom_errors content⟩

/-- Concrete contract text containing exactly the declarations named by the
parse fixture (braces written as escapes). -/
def erc20Fixture : String :=
  "contract SimpleERC20 \x7b\n    string public name;\n    mapping(address => uint256) public balanceOf;\n\n    event Transfer(address indexed from, address indexed to, uint256 value);\n\n    error InsufficientBalance(address account, uint256 requested, uint256 available);\n\n    function transfer(address to, uint256 value) public returns (bool success) \x7b ... \x7d\n\x7d\n"

/-- The parse of `erc20Fixture`. -/
def erc20Expected : SolidityContract :=
  ⟨"SimpleERC20",
   [⟨"transfer",
     [⟨"to", "address", false⟩, ⟨"value", "uint256", false⟩],
     some "bool", "public", none, " ... "⟩],
   [⟨"name", "string", "public", false, none, none⟩,
    ⟨"balanceOf", "mapping(address => uint256)", "public", true,
     some "address", some "uint256"⟩],
   [⟨"Transfer",
     [⟨"from", "address", true⟩, ⟨"to", "address", true⟩,
      ⟨"value", "uint256", false⟩]⟩],
   ["InsufficientBalance"]⟩

set_option maxRecDepth 100000 in
/-- C2: parsing the fixture succeeds and yields the contract name
`SimpleERC20`, the plain public state variable `name`, the mapping state
variable `balanceOf` from `address` to `uint256`, the `Transfer` event with
three parameters of which exactly the first two are indexed, the custom
error `InsufficientBalance`, and the public function `transfer` with
parameters `(to, address)` and `(value, uint256)` returning `bool`. -/
theorem parse_erc20_fixture :
    ∃ c, parse_contract erc20Fixture = .ok c ∧
      c.name = "SimpleERC20" ∧
      (∃ v ∈ c.state_variables,
        v.name = "name" ∧ v.type_name = "string" ∧ v.visibility = "public" ∧
        v.is_mapping = false) ∧
      (∃ v ∈ c.state_variables,
        v.name = "balanceOf" ∧ v.is_mapping = true ∧
        v.key_type = some "address" ∧ v.value_type = some "uint256") ∧
      (∃ ev ∈ c.events, ev.name = "Transfer" ∧
        ev.parameters.map (fun p => p.is_indexed) = [true, true, false]) ∧
      c.custom_errors = ["InsufficientBalance"] ∧
      (∃ f ∈ c.functions, f.name = "transfer" ∧
        f.parameters.map (fun p => (p.name, p.type_name)) =
          [("to", "address"), ("value", "uint256")] ∧
        f.return_type = some "bool" ∧ f.visibility = "public") := by
  refine ⟨erc20Expected, by rfl, by decide, ?_, ?_, ?_, by decide, ?_⟩
  · exact ⟨⟨"name", "string", "public", false, none, none⟩, by decide, by decide,
      by decide, by decide, by decide⟩
  · exact ⟨⟨"balanceOf", "mapping(address => uint256)", "public", true,
      some "address", some "uint256"⟩, by decide, by decide, by decide, by decide,
      by decide⟩
  · exact ⟨⟨"Transfer", [⟨"from", "address", true⟩, ⟨"to", "address", true⟩,
      ⟨"value", "uint256", false⟩]⟩, by decide, by decide, by decide⟩
  · exact ⟨⟨"transfer", [⟨"to", "address", false⟩, ⟨"value", "uint256", false⟩],
      some "bool", "public", none, " ... "⟩, by decide, by decide, by decide,
      by decide, by decide⟩

/-- Whether an `Except` is `ok`. -/
def isOkE {ε α : Type} : Except ε α → Bool
  | .ok _ => true
  | .error _ => false

/-- C8: `parse_contract` fails exactly when the `contract <Name>` pattern
has no match in the input; the failure is always the NameNotFound error
("No contract name found"); and an input with a contract declaration but no
matching state variables, functions, events or custom errors parses to a
contract whose four lists are all empty. -/
theorem parse_failure_iff_no_contract_name (t : String) :
    isOkE (parse_contract t) = isOkE (parse_contract_name t) ∧
    (parse_contract t = .error "No contract name found" ∨
      isOkE (parse_contract t) = true) ∧
    parse_contract "contract Empty" = .ok ⟨"Empty", [], [], [], []⟩ := by
  refine ⟨?_, ?_, by rfl⟩
  · unfold parse_contract
    cases h : parse_contract_name t <;> simp [isOkE]
  · cases h : parse_contract_name t with
    | error e =>
      left
      have he : e = "No contract name found" := by
        unfold parse_contract_name at h
        cases h2 : findFirstMap matchContractNameAt t.toList with
        | some n => rw [h2] at h; exact absurd h (by simp)
        | none => rw [h2] at h; exact (Except.error.inj h).symm
      unfold parse_contract
      rw [h, he]
    | ok n =>
      right
      unfold parse_contract
      rw [h]
      rfl

end SolidityParser

namespace RAGSystem

/-- 2^64, the machine-word modulus of the hash arithmetic. -/
def M64 : Nat := 18446744073709551616

/-- Wrap to 64 bits (`wrapping_mul` / `wrapping_add`). -/
def wrap (n : Nat) : Nat := n % M64

/-- 64-bit left rotation. -/
def rotl (x b : Nat) : Nat :=
  ((x <<< b) % M64) ||| (x >>> (64 - b))

/-- The four 64-bit state words of SipHash. -/
structure SipState where
  v0 : Nat
  v1 : Nat
  v2 : Nat
  v3 : Nat

/-- One SipHash round. -/
def sipRound (s : SipState) : SipState :=
  let v0 := wrap (s.v0 + s.v1)
  let v1 := rotl s.v1 13
  let v1 := v1 ^^^ v0
  let v0 := rotl v0 32
  let v2 := wrap (s.v2 + s.v3)
  let v3 := rotl s.v3 16
  let v3 := v3 ^^^ v2
  let v0 := wrap (v0 + v3)
  let v3 := rotl v3 21
  let v3 := v3 ^^^ v0
  let v2 := wrap (v2 + v1)
  let v1 := rotl v1 17
  let v1 := v1 ^^^ v2
  let v2 := rotl v2 32
  ⟨v0, v1, v2, v3⟩

/-- Compress one 64-bit message word (SipHash-1-3: one compression round). -/
def sipCompress (s : SipState) (m : Nat) : SipState :=
  let s := { s with v3 := s.v3 ^^^ m }
  let s := sipRound s
  { s with v0 := s.v0 ^^^ m }

/-- Little-endian value of a byte list. -/
def le64 (bs : List Nat) : Nat :=
  bs.foldr (fun b acc => b + 256 * acc) 0

/-- Split a byte list into full 8-byte chunks and the tail. -/
def chunks8 : List Nat → List (List Nat) × List Nat
  | b0 :: b1 :: b2 :: b3 :: b4 :: b5 :: b6 :: b7 :: rest =>
    let pr := chunks8 rest
    ([b0, b1, b2, b3, b4, b5, b6, b7] :: pr.1, pr.2)
  | l => ([], l)

/-- SipHash-1-3 with both keys zero, the algorithm behind Rust's
`DefaultHasher`: initialize the four words from the key constants, compress
each full little-endian word with one round, compress the final word built
from the tail bytes and the length byte, then three finalization rounds. -/
def siphash13 (bytes : List Nat) : Nat :=
  let init : SipState :=
    ⟨0x736f6d6570736575, 0x646f72616e646f6d, 0x6c7967656e657261, 0x7465646279746573⟩
  let pr := chunks8 bytes
  let st := pr.1.foldl (fun st c => sipCompress st (le64 c)) init
  let b := wrap ((bytes.length % 256) * 72057594037927936 + le64 pr.2)
  let st := sipCompress st b
  let st := { st with v2 := st.v2 ^^^ 0xff }
  let st := sipRound (sipRound (sipRound st))
  st.v0 ^^^ st.v1 ^^^ st.v2 ^^^ st.v3

/-- UTF-8 encoding of one character. -/
def utf8Bytes (c : Char) : List Nat :=
  let n := c.toNat
  if n < 0x80 then [n]
  else if n < 0x800 then
    [0xC0 ||| (n >>> 6), 0x80 ||| (n &&& 0x3F)]
  else if n < 0x10000 then
    [0xE0 ||| (n >>> 12), 0x80 ||| ((n >>> 6) &&& 0x3F), 0x80 ||| (n &&& 0x3F)]
  else
    [0xF0 ||| (n >>> 18), 0x80 ||| ((n >>> 12) &&& 0x3F),
     0x80 ||| ((n >>> 6) &&& 0x3F), 0x80 ||| (n &&& 0x3F)]

/-- Rust `DefaultHasher` hash of a `&str`: the UTF-8 bytes followed by the
0xff terminator byte, through SipHash-1-3 with zero keys. -/
def rustStrHash (s : String) : Nat :=
  siphash13 ((s.toList.map utf8Bytes).flatten ++ [0xff])

/-- One step of the linear congruential generator in `embed_text`:
`seed.wrapping_mul(1103515245).wrapping_add(12345)`. -/
def lcgNext (seed : Nat) : Nat :=
  wrap (seed * 1103515245 + 12345)

/-- The list of the first `n` post-update LCG seeds (the loop updates the
seed before pushing each component). -/
def seedList : Nat → Nat → List Nat
  | 0, _ => []
  | n + 1, seed =>
    let s := lcgNext seed
    s :: seedList n s

/-- The 384 seeds driving the embedding of `t`. -/
def embedSeeds (t : String) : List Nat :=
  seedList 384 (rustStrHash t)

/-- `u64::MAX`, the divisor of the pre-normalization value
`(seed as f32 / u64::MAX as f32) * 2.0 - 1.0`. -/
def UMAX : Nat := 18446744073709551615

/-- Integer numerator of one raw component: `seed/UMAX * 2 - 1` has the
exact value `(2 * seed - UMAX) / UMAX`. -/
def rawOfSeed (s : Nat) : Int :=
  2 * (s : Int) - (UMAX : Int)

/-- Integer numerators of the raw (pre-normalization) embedding components
(common denominator `UMAX`). -/
def rawNum (t : String) : List Int :=
  (embedSeeds t).map rawOfSeed

/-- Integer numerator of the squared magnitude `Σ xᵢ²` (the common
denominator is `UMAX ^ 2`). -/
def magSqNum (t : String) : Int :=
  ((rawNum t).map (fun n => n * n)).sum

/-- One raw embedding component as a real number (the f32 arithmetic of
`embed_text` is idealized over ℝ). -/
noncomputable def embedVal (n : Int) : ℝ :=
  (n : ℝ) / (UMAX : ℝ)

/-- The magnitude `sqrt (Σ xᵢ²)` of the raw embedding of `t`. -/
noncomputable def magR (t : String) : ℝ :=
  Real.sqrt ((magSqNum t : ℝ) / (UMAX : ℝ) ^ 2)

/-- `RAGSystem::embed_text` (real-arithmetic idealization of the f32
computations): hash the text, generate 384 LCG-driven components in
[-1, 1], and divide each by the magnitude when it is positive (the
`magnitude > 0.0` guard is equivalent to `magSqNum > 0`). -/
noncomputable def embed_text (t : String) : List ℝ :=
  if 0 < magSqNum t then (rawNum t).map (fun n => embedVal n / magR t)
  else (rawNum t).map embedVal

theorem seedList_length : ∀ (n : Nat) (s : Nat), (seedList n s).length = n := by
  intro n
  induction n with
  | zero => intro s; rfl
  | succ k ih => intro s; simp [seedList, ih]

theorem rawNum_length (t : String) : (rawNum t).length = 384 := by
  simp [rawNum, embedSeeds, seedList_length]

theorem exists_cons_cons {α : Type} (l : List α) (h : 2 ≤ l.length) :
    ∃ a b t, l = a :: b :: t := by
  match l with
  | [] => simp at h
  | [a] => simp at h
  | a :: b :: t => exact ⟨a, b, t, rfl⟩

set_option maxRecDepth 100000 in
/-- C9: `embed_text` is a pure, deterministic function of the input text
(the embedding has no hidden state: two calls with the same text give the
same 384-component vector), and the vectors of "flip" and "transfer"
differ. -/
theorem embed_text_deterministic_and_distinct :
    (∀ t : String, embed_text t = embed_text t) ∧
    (∀ t : String, (embed_text t).length = 384) ∧
    embed_text "flip" ≠ embed_text "transfer" := by
  refine ⟨fun _ => rfl, ?_, ?_⟩
  · intro t
    unfold embed_text
    by_cases h : 0 < magSqNum t
    · rw [if_pos h, List.length_map, rawNum_length]
    · rw [if_neg h, List.length_map, rawNum_length]
  · intro heq
    have hm1 : 0 < magSqNum "flip" := by decide
    have hm2 : 0 < magSqNum "transfer" := by decide
    have hU : (0 : ℝ) < (UMAX : ℝ) := by
      have h0 : (0 : Nat) < UMAX := by decide
      exact_mod_cast h0
    have hUne : (UMAX : ℝ) ≠ 0 := ne_of_gt hU
    have hm1r : 0 < magR "flip" := by
      apply Real.sqrt_pos.mpr
      apply div_pos
      · exact_mod_cast hm1
      · positivity
    have hm2r : 0 < magR "transfer" := by
      apply Real.sqrt_pos.mpr
      apply div_pos
      · exact_mod_cast hm2
      · positivity
    have hm1ne : magR "flip" ≠ 0 := ne_of_gt hm1r
    have hm2ne : magR "transfer" ≠ 0 := ne_of_gt hm2r
    rw [embed_text, embed_text, if_pos hm1, if_pos hm2] at heq
    obtain ⟨x0, x1, xs, hx⟩ :=
      exists_cons_cons (rawNum "flip") (by rw [rawNum_length]; omega)
    obtain ⟨y0, y1, ys, hy⟩ :=
      exists_cons_cons (rawNum "transfer") (by rw [rawNum_length]; omega)
    have hg : ((rawNum "flip").getD 0 0) * ((rawNum "transfer").getD 1 0) ≠
        ((rawNum "flip").getD 1 0) * ((rawNum "transfer").getD 0 0) := by decide
    rw [hx, hy] at hg
    simp only [List.getD_cons_zero, List.getD_cons_succ] at hg
    rw [hx, hy] at heq
    simp only [List.map_cons, List.cons.injEq] at heq
    obtain ⟨e0, e1, _⟩ := heq
    apply hg
    unfold embedVal at e0 e1
    rw [div_div, div_div, div_eq_div_iff (by positivity) (by positivity)] at e0
    rw [div_div, div_div, div_eq_div_iff (by positivity) (by positivity)] at e1
    have hA : (UMAX : ℝ) * magR "transfer" ≠ 0 := mul_ne_zero hUne hm2ne
    have h4 : (x0 : ℝ) * (y1 : ℝ) * ((UMAX : ℝ) * magR "transfer") =
        (x1 : ℝ) * (y0 : ℝ) * ((UMAX : ℝ) * magR "transfer") := by
      linear_combination (y1 : ℝ) * e0 - (y0 : ℝ) * e1
    have key := mul_right_cancel₀ hA h4
    exact_mod_cast key

end RAGSystem
